import Mathlib

/-!
Verification of the BuzzBot news-recommendation server
(src/mcp-bearer-token/mcp-start.py) against its specification.

Modelling conventions:
* Python strings are sequences of code points, embedded as `List Nat`
  (the `Str` abbreviation).  `strOf` converts a Lean string literal to
  this representation for concrete test inputs.
* `str.lower()` and `str.strip()` are modelled on the ASCII fragment the
  program manipulates: `lowerChar` shifts the letters A-Z, `isSpaceChar`
  recognises the ASCII whitespace characters stripped by Python.
* The module-level dict `USER_INTERESTS` is an insertion-ordered
  association list (`Store`); `setdefaultStore` and `insertStore` mirror
  `dict.setdefault(k, [])` and `d[k] = v` (a fresh key is appended, an
  existing key is updated in place).
* `ServerState` carries the in-memory map (`mem`) and the durable JSON
  file (`disk`); `save_user_interests` copies `mem` to `disk`.
* Raised `McpError`s become `Except.error` values carrying the error
  code (`PErr.invalidParams` for INVALID_PARAMS, `PErr.internal` for
  INTERNAL_ERROR) and message; every tool returns the (possibly
  mutated) state alongside the result, since in Python a raised error
  does not roll back mutations already performed.
* Relevance scores in Python are floats obtained by summing `1.0` per
  matching topic; these values are exactly the naturals, so the score is
  embedded as a `Nat`.
* The free-text `message` / `suggestions` fields of the JSON replies are
  presentation only and are not modelled; the structured fields
  (identifier, interests, counts, articles, `next_action` tag) are.
-/

namespace WorldFeed

/-- Python strings, as sequences of code points. -/
abbrev Str := List Nat

/-- Code-point list of a Lean string literal, for concrete inputs. -/
def strOf (s : String) : Str := s.toList.map Char.toNat

/-- ASCII model of Python str.lower: shift the letters A-Z (codes 65-90)
down to a-z (codes 97-122); every other character is unchanged. -/
def lowerChar (c : Nat) : Nat := if 65 ≤ c ∧ c ≤ 90 then c + 32 else c

/-- Model of str.lower applied to a whole string. -/
def pyLower (s : Str) : Str := s.map lowerChar

/-- ASCII whitespace, the characters removed by Python str.strip():
space, tab, newline, carriage return, vertical tab, form feed. -/
def isSpaceChar (c : Nat) : Bool :=
  c == 32 || c == 9 || c == 10 || c == 13 || c == 11 || c == 12

/-- Model of Python str.strip(): drop leading and trailing whitespace. -/
def pyStrip (s : Str) : Str :=
  ((s.dropWhile isSpaceChar).reverse.dropWhile isSpaceChar).reverse

/-- Model of the Python substring test a in b. -/
def substrB (needle hay : Str) : Bool := decide (needle <:+: hay)

/-- One entry of the per-topic cleaning in set_interests (line 172):
interest.strip().lower(). -/
def cleanTopic (s : Str) : Str := pyLower (pyStrip s)

/-- The list comprehension of set_interests line 172:
[interest.strip().lower() for interest in interests if interest.strip()]. -/
def cleanInterests (ts : List Str) : List Str :=
  (ts.filter (fun s => !(pyStrip s).isEmpty)).map cleanTopic

/-- The USER_INTERESTS dict: an insertion-ordered association list from
user identifier to interest list. -/
abbrev Store := List (Str × List Str)

/-- Dict lookup d.get(k): first binding of the key, if any. -/
def lookupStore : Store → Str → Option (List Str)
  | [], _ => none
  | (k, v) :: rest, key => if k = key then some v else lookupStore rest key

/-- Python d.setdefault(key, []): return the existing value, or insert an
empty list for the key (appended, preserving insertion order) and return it. -/
def setdefaultStore (st : Store) (key : Str) : List Str × Store :=
  match lookupStore st key with
  | some v => (v, st)
  | none => ([], st ++ [(key, [])])

/-- Python dict assignment d[key] = v: update in place if the key exists,
otherwise append a new binding. -/
def insertStore : Store → Str → List Str → Store
  | [], key, v => [(key, v)]
  | (k, w) :: rest, key, v =>
    if k = key then (k, v) :: rest else (k, w) :: insertStore rest key v

/-- Process state: the in-memory USER_INTERESTS map and the durable
user_interests.json contents. -/
structure ServerState where
  mem : Store
  disk : Store
  deriving DecidableEq

/-- MCP error outcomes: the error code raised via McpError together with
its message (INVALID_PARAMS or INTERNAL_ERROR). -/
inductive PErr where
  | invalidParams (msg : String)
  | internal (msg : String)
  deriving DecidableEq

/-- Message text of an error, as str(e) reads it back in Python. -/
def errMessage : PErr → String
  | .invalidParams m => m
  | .internal m => m

/-- The helper _user_interests (lines 70-75): raise INVALID_PARAMS when the
identifier is empty, otherwise USER_INTERESTS.setdefault(puch_user_id, []). -/
def userInterests (uid : Str) (s : ServerState) :
    Except PErr (List Str) × ServerState :=
  if uid.isEmpty then
    (.error (.invalidParams "puch_user_id is required"), s)
  else
    let p := setdefaultStore s.mem uid
    (.ok p.1, { s with mem := p.2 })

/-- Structured reply of hello_buzzbot (free-text message omitted). -/
structure GreetResult where
  user_id : Str
  current_interests : List Str
  next_action : String
  deriving DecidableEq

/-- Response construction of hello_buzzbot (lines 123-157): branch on the
lowered, stripped greeting text and on whether interests already exist.
Every branch only builds a reply; none mutates state. -/
def helloReply (uid msg : Str) (existing : List Str) : GreetResult :=
  let m := pyStrip (pyLower msg)
  if substrB (strOf "hello") m || substrB (strOf "hi") m then
    if !existing.isEmpty then
      { user_id := uid, current_interests := existing, next_action := "ready_for_news" }
    else
      { user_id := uid, current_interests := [], next_action := "need_interests" }
  else
    { user_id := uid, current_interests := existing, next_action := "general_help" }

/-- The hello_buzzbot tool (lines 117-160).  The body reads the interests
via _user_interests and branches on the greeting text; its except clause
catches every exception, McpError included, and re-raises it as
INTERNAL_ERROR with the original message as text. -/
def hello_buzzbot (uid msg : Str) (s : ServerState) :
    Except PErr GreetResult × ServerState :=
  match userInterests uid s with
  | (.error e, s') => (.error (.internal (errMessage e)), s')
  | (.ok existing, s') => (.ok (helloReply uid msg existing), s')

/-- Structured reply of set_interests (free-text message omitted). -/
structure SetResult where
  user_id : Str
  interests : List Str
  next_action : String
  deriving DecidableEq

/-- The set_interests tool (lines 162-193): reject an empty topics list,
clean the topics, reject if nothing survives cleaning, otherwise store the
cleaned list under the identifier and flush the store to disk.  Its except
clauses re-raise McpError unchanged.  Note the identifier itself is never
validated here. -/
def set_interests (uid : Str) (topics : List Str) (s : ServerState) :
    Except PErr SetResult × ServerState :=
  if topics.isEmpty then
    (.error (.invalidParams "interests must be a non-empty list"), s)
  else
    let clean := cleanInterests topics
    if clean.isEmpty then
      (.error (.invalidParams "interests cannot be empty after cleaning"), s)
    else
      let mem' := insertStore s.mem uid clean
      (.ok { user_id := uid, interests := clean, next_action := "ready_for_news" },
       { mem := mem', disk := mem' })

/-- Structured reply of get_interests (free-text message omitted). -/
structure InterestsResult where
  user_id : Str
  interests : List Str
  count : Nat
  next_action : String
  deriving DecidableEq

/-- The get_interests tool (lines 195-210): read the interests via
_user_interests and report the list with its count.  Like hello_buzzbot,
its except clause catches McpError too and re-raises as INTERNAL_ERROR. -/
def get_interests (uid : Str) (s : ServerState) :
    Except PErr InterestsResult × ServerState :=
  match userInterests uid s with
  | (.error e, s') => (.error (.internal (errMessage e)), s')
  | (.ok v, s') =>
    (.ok { user_id := uid, interests := v, count := v.length,
           next_action := "show_interests" }, s')

/-- Raw article as decoded from the NewsAPI JSON: every field optional. -/
structure RawArticle where
  title : Option Str
  description : Option Str
  url : Option Str
  publishedAt : Option Str
  sourceName : Option Str
  deriving DecidableEq

/-- Formatted article as produced by fetch_news_by_interests (lines
279-286); the float relevance score is an exact small integer, kept as Nat. -/
structure Article where
  title : Str
  description : Str
  url : Str
  published_at : Str
  source : Str
  relevance_score : Nat
  deriving DecidableEq

/-- The calculate_relevance function (lines 301-312): lowercase the raw
title and description, join them with a single space, and count one point
for each interest whose lowercased text occurs as a substring. -/
def calculate_relevance (article : RawArticle) (interests : List Str) : Nat :=
  let title := pyLower (article.title.getD [])
  let description := pyLower (article.description.getD [])
  let content := title ++ 32 :: description
  interests.foldl (fun score i => if substrB (pyLower i) content then score + 1 else score) 0

/-- Outcome of the one external HTTP request in fetch_news_by_interests:
requests.get may time out or fail at transport level, raise_for_status may
signal a non-success HTTP status, or the call succeeds with a decoded list
of raw articles. -/
inductive ApiOutcome where
  | timeout
  | transportError
  | httpError
  | success (raw : List RawArticle)
  deriving DecidableEq

/-- Formatting of one raw article (lines 279-286): default every missing
field to the empty string and attach the computed relevance score. -/
def formatArticle (interests : List Str) (a : RawArticle) : Article :=
  { title := a.title.getD [], description := a.description.getD [],
    url := a.url.getD [], published_at := a.publishedAt.getD [],
    source := a.sourceName.getD [], relevance_score := calculate_relevance a interests }

/-- Sort relation of formatted_articles.sort(key=relevance_score,
reverse=True): a comes no later than b when its score is at least b's. -/
def scoreDescB (a b : Article) : Bool := decide (b.relevance_score ≤ a.relevance_score)

/-- The ranking step (lines 288-291): Python list.sort is a stable sort,
modelled by the stable List.mergeSort, followed by the defensive cap at 5. -/
def rankArticles (arts : List Article) : List Article :=
  (arts.mergeSort scoreDescB).take 5

/-- The fetch_news_by_interests function (lines 253-298).  With an empty
interests list the subscript interests[0] raises, which the blanket except
turns into an empty result; a timeout, transport error or non-success
status likewise yields [].  On success the first 5 raw articles are
formatted, scored, stably sorted by descending score and capped at 5.
The function never touches the interest store, so the state passes
through unchanged. -/
def fetch_news_by_interests (interests : List Str) (outcome : ApiOutcome)
    (s : ServerState) : List Article × ServerState :=
  if interests.isEmpty then ([], s)
  else
    match outcome with
    | .success raw => (rankArticles ((raw.take 5).map (formatArticle interests)), s)
    | _ => ([], s)

/-- Structured reply of get_latest_news (free-text message omitted). -/
structure NewsResult where
  user_id : Str
  interests : List Str
  news_count : Nat
  articles : List Article
  next_action : String
  deriving DecidableEq

/-- Response construction of get_latest_news (lines 225-243): the
empty-result notice when no articles came back, otherwise the ranked
article list with its count.  Only builds a reply; no mutation. -/
def newsReply (uid : Str) (interests : List Str) (arts : List Article) : NewsResult :=
  if arts.isEmpty then
    { user_id := uid, interests := interests, news_count := 0,
      articles := [], next_action := "no_news_found" }
  else
    { user_id := uid, interests := interests, news_count := arts.length,
      articles := arts, next_action := "news_displayed" }

/-- The get_latest_news tool (lines 213-249): read the interests via
_user_interests (re-raising its McpError unchanged), fail with
INVALID_PARAMS when the stored list is empty, otherwise fetch and report
either the empty-result notice or the ranked articles with their count. -/
def get_latest_news (uid : Str) (outcome : ApiOutcome) (s : ServerState) :
    Except PErr NewsResult × ServerState :=
  match userInterests uid s with
  | (.error e, s') => (.error e, s')
  | (.ok interests, s') =>
    if interests.isEmpty then
      (.error (.invalidParams "No interests set. Please set interests first using set_interests or say hello to get started."), s')
    else
      let p := fetch_news_by_interests interests outcome s'
      (.ok (newsReply uid interests p.1), p.2)

/-- The relevance score as the specification words it: the count of topics
that occur case-insensitively as a substring of the plain concatenation of
the title and the description, with no separator.  Kept distinct from
calculate_relevance so the two can be compared. -/
def claimedRelevance (article : RawArticle) (interests : List Str) : Nat :=
  interests.countP
    (fun i => substrB (pyLower i)
      (pyLower (article.title.getD [] ++ article.description.getD [])))

/-- The relevance score with the concatenation amended to carry the single
space separator the code inserts between title and description. -/
def spacedRelevance (article : RawArticle) (interests : List Str) : Nat :=
  interests.countP
    (fun i => substrB (pyLower i)
      (pyLower (article.title.getD [] ++ 32 :: article.description.getD [])))

/-- A topic as the store invariant wants it: non-empty, already stripped
and already lowercased. -/
def cleanStoredTopic (t : Str) : Prop := t ≠ [] ∧ pyStrip t = t ∧ pyLower t = t

/-- Invariant of the interest map: every stored interest list contains
only non-empty, stripped, lowercased topics. -/
def storeInv (st : Store) : Prop := ∀ p ∈ st, ∀ t ∈ p.2, cleanStoredTopic t

lemma lowerChar_lowerChar (c : Nat) : lowerChar (lowerChar c) = lowerChar c := by
  unfold lowerChar
  split_ifs <;> omega

lemma pyLower_pyLower (s : Str) : pyLower (pyLower s) = pyLower s := by
  unfold pyLower
  rw [List.map_map]
  exact List.map_congr_left fun a _ => lowerChar_lowerChar a

lemma isSpaceChar_lowerChar (c : Nat) : isSpaceChar (lowerChar c) = isSpaceChar c := by
  unfold lowerChar isSpaceChar
  split_ifs with h
  · have h1 : ((c + 32 == 32 || c + 32 == 9 || c + 32 == 10 || c + 32 == 13 ||
        c + 32 == 11 || c + 32 == 12)) = false := by
      simp only [Bool.or_eq_false_iff, beq_eq_false_iff_ne, ne_eq]
      omega
    have h2 : ((c == 32 || c == 9 || c == 10 || c == 13 || c == 11 || c == 12)) = false := by
      simp only [Bool.or_eq_false_iff, beq_eq_false_iff_ne, ne_eq]
      omega
    rw [h1, h2]
  · rfl

lemma isSpace_comp_lowerChar : (isSpaceChar ∘ lowerChar) = isSpaceChar :=
  funext fun c => isSpaceChar_lowerChar c

lemma dropWhile_head_not (p : Nat → Bool) :
    ∀ (l : List Nat) (x : Nat) (r : List Nat), l.dropWhile p = x :: r → p x = false := by
  intro l
  induction l with
  | nil => intro x r h; cases h
  | cons a t ih =>
    intro x r h
    rw [List.dropWhile_cons] at h
    split at h
    · exact ih x r h
    · cases h
      rename_i hpa
      simpa using hpa

lemma dropWhile_dropWhile (p : Nat → Bool) (l : List Nat) :
    (l.dropWhile p).dropWhile p = l.dropWhile p := by
  cases h : l.dropWhile p with
  | nil => rfl
  | cons x r =>
    have hx := dropWhile_head_not p l x r h
    simp [List.dropWhile_cons, hx]

lemma pyStrip_pyStrip (s : Str) : pyStrip (pyStrip s) = pyStrip s := by
  unfold pyStrip
  set p := isSpaceChar with hp
  set a := s.dropWhile p with ha
  set b := (a.reverse.dropWhile p).reverse with hb
  have h1 : b.dropWhile p = b := by
    cases hbb : b with
    | nil => rfl
    | cons x r =>
      obtain ⟨t, ht⟩ := List.dropWhile_suffix (l := a.reverse) p
      have ha2 : b ++ t.reverse = a := by
        have hr := congrArg List.reverse ht
        rw [List.reverse_append, List.reverse_reverse] at hr
        rw [hb]
        exact hr
      have hax : a = x :: (r ++ t.reverse) := by
        rw [← ha2, hbb]
        rfl
      have hpx : p x = false := dropWhile_head_not p s x (r ++ t.reverse) (by rw [← ha, hax])
      rw [List.dropWhile_cons, hpx]
      simp
  have h2 : b.reverse.dropWhile p = b.reverse := by
    rw [hb, List.reverse_reverse]
    exact dropWhile_dropWhile p a.reverse
  rw [h1, h2, List.reverse_reverse]

lemma pyStrip_pyLower (s : Str) : pyStrip (pyLower s) = pyLower (pyStrip s) := by
  unfold pyStrip pyLower
  rw [List.dropWhile_map, isSpace_comp_lowerChar, ← List.map_reverse,
    List.dropWhile_map, isSpace_comp_lowerChar, ← List.map_reverse]

lemma cleanTopic_clean (s : Str) (h : pyStrip s ≠ []) : cleanStoredTopic (cleanTopic s) := by
  refine ⟨?_, ?_, ?_⟩
  · unfold cleanTopic pyLower
    intro hc
    exact h (List.map_eq_nil_iff.mp hc)
  · unfold cleanTopic
    rw [pyStrip_pyLower, pyStrip_pyStrip]
  · exact pyLower_pyLower _

lemma cleanInterests_clean (ts : List Str) : ∀ t ∈ cleanInterests ts, cleanStoredTopic t := by
  intro t ht
  unfold cleanInterests at ht
  obtain ⟨u, hu, rfl⟩ := List.mem_map.mp ht
  have hu2 := List.mem_filter.mp hu
  have hne : pyStrip u ≠ [] := by
    have hb : (pyStrip u).isEmpty = false := by simpa using hu2.2
    exact List.isEmpty_eq_false.mp hb
  exact cleanTopic_clean u hne

lemma cleanTopic_of_blank (s : Str) (h : pyStrip s = []) : cleanTopic s = [] := by
  unfold cleanTopic
  rw [h]
  rfl

lemma lookup_insertStore_self (st : Store) (k : Str) (v : List Str) :
    lookupStore (insertStore st k v) k = some v := by
  induction st with
  | nil => simp [insertStore, lookupStore]
  | cons q rest ih =>
    obtain ⟨k', w⟩ := q
    by_cases h : k' = k
    · simp [insertStore, lookupStore, h]
    · simp [insertStore, lookupStore, h, ih]

lemma lookup_append_single (st : Store) (k : Str) (v : List Str)
    (h : lookupStore st k = none) : lookupStore (st ++ [(k, v)]) k = some v := by
  induction st with
  | nil => simp [lookupStore]
  | cons q rest ih =>
    obtain ⟨k', w⟩ := q
    by_cases hk : k' = k
    · simp [lookupStore, hk] at h
    · simp only [lookupStore, List.cons_append, if_neg hk] at h ⊢
      exact ih h

lemma mem_insertStore (st : Store) (k : Str) (v : List Str) (q : Str × List Str)
    (hq : q ∈ insertStore st k v) : q = (k, v) ∨ q ∈ st := by
  induction st with
  | nil => simpa [insertStore] using hq
  | cons e rest ih =>
    obtain ⟨k', w⟩ := e
    by_cases h : k' = k
    · rw [insertStore, if_pos h] at hq
      rcases List.mem_cons.mp hq with h1 | h1
      · left; rw [h1, h]
      · right; exact List.mem_cons_of_mem _ h1
    · rw [insertStore, if_neg h] at hq
      rcases List.mem_cons.mp hq with h1 | h1
      · right; rw [h1]; exact List.mem_cons_self _ _
      · rcases ih h1 with h2 | h2
        · left; exact h2
        · right; exact List.mem_cons_of_mem _ h2

lemma storeInv_insertStore (st : Store) (k : Str) (v : List Str)
    (hinv : storeInv st) (hv : ∀ t ∈ v, cleanStoredTopic t) :
    storeInv (insertStore st k v) := by
  intro q hq t htq
  rcases mem_insertStore st k v q hq with h | h
  · rw [h] at htq
    exact hv t htq
  · exact hinv q h t htq

lemma storeInv_setdefault (st : Store) (k : Str) (hinv : storeInv st) :
    storeInv (setdefaultStore st k).2 := by
  unfold setdefaultStore
  cases h : lookupStore st k with
  | some v => exact hinv
  | none =>
    intro q hq t htq
    rcases List.mem_append.mp hq with h1 | h1
    · exact hinv q h1 t htq
    · simp only [List.mem_singleton] at h1
      rw [h1] at htq
      cases htq

lemma setdefault_fst (st : Store) (k : Str) :
    (setdefaultStore st k).1 = (lookupStore st k).getD [] := by
  unfold setdefaultStore
  cases h : lookupStore st k <;> rfl

lemma fetch_state (i : List Str) (o : ApiOutcome) (s : ServerState) :
    (fetch_news_by_interests i o s).2 = s := by
  unfold fetch_news_by_interests
  split
  · rfl
  · split <;> rfl

lemma hello_state (uid msg : Str) (s : ServerState) (h : uid ≠ []) :
    (hello_buzzbot uid msg s).2 = { s with mem := (setdefaultStore s.mem uid).2 } := by
  have h1 : uid.isEmpty = false := List.isEmpty_eq_false.mpr h
  simp [hello_buzzbot, userInterests, h1]

lemma get_interests_state (uid : Str) (s : ServerState) (h : uid ≠ []) :
    (get_interests uid s).2 = { s with mem := (setdefaultStore s.mem uid).2 } := by
  have h1 : uid.isEmpty = false := List.isEmpty_eq_false.mpr h
  simp [get_interests, userInterests, h1]

lemma get_latest_news_state (uid : Str) (o : ApiOutcome) (s : ServerState) (h : uid ≠ []) :
    (get_latest_news uid o s).2 = { s with mem := (setdefaultStore s.mem uid).2 } := by
  have h1 : uid.isEmpty = false := List.isEmpty_eq_false.mpr h
  simp only [get_latest_news, userInterests, h1, Bool.false_eq_true, if_false]
  split
  · rfl
  · rw [fetch_state]

lemma count_cleanInterests (ts : List Str) (t : Str) (h : t ≠ []) :
    (cleanInterests ts).count t = (ts.map cleanTopic).count t := by
  induction ts with
  | nil => rfl
  | cons a rest ih =>
    by_cases ha : (pyStrip a).isEmpty
    · have ha2 : pyStrip a = [] := List.isEmpty_iff.mp ha
      have hct : cleanTopic a = [] := cleanTopic_of_blank a ha2
      have hne : t ≠ cleanTopic a := by rw [hct]; exact h
      have hl : cleanInterests (a :: rest) = cleanInterests rest := by
        simp [cleanInterests, List.filter_cons, ha]
      rw [hl, List.map_cons, List.count_cons_of_ne hne, ih]
    · have hl : cleanInterests (a :: rest) = cleanTopic a :: cleanInterests rest := by
        simp [cleanInterests, List.filter_cons, ha]
      rw [hl, List.map_cons, List.count_cons, List.count_cons, ih]

lemma foldl_count {α : Type} (p : α → Bool) (l : List α) (n : Nat) :
    l.foldl (fun score i => if p i then score + 1 else score) n = n + l.countP p := by
  induction l generalizing n with
  | nil => simp
  | cons a rest ih =>
    by_cases h : p a
    · simp only [List.countP_cons, h, ih, List.foldl_cons, if_true]
      omega
    · simp [List.countP_cons, h, ih]

lemma pyLower_append_space (x y : Str) :
    pyLower (x ++ 32 :: y) = pyLower x ++ 32 :: pyLower y := by
  have h32 : lowerChar 32 = 32 := rfl
  simp [pyLower, h32]

lemma scoreDescB_trans (a b c : Article) :
    scoreDescB a b → scoreDescB b c → scoreDescB a c := by
  simp only [scoreDescB, decide_eq_true_eq]
  omega

lemma scoreDescB_total (a b : Article) : scoreDescB a b || scoreDescB b a := by
  simp only [scoreDescB, Bool.or_eq_true, decide_eq_true_eq]
  omega

lemma mergeSort_filter_score (arts : List Article) (n : Nat) :
    (arts.mergeSort scoreDescB).filter (fun a => a.relevance_score == n)
      = arts.filter (fun a => a.relevance_score == n) := by
  have hpair : (arts.filter (fun a => a.relevance_score == n)).Pairwise
      (fun a b => scoreDescB a b) := by
    apply List.pairwise_of_forall_mem_list
    intro a ha b hb
    have ha2 := (List.mem_filter.mp ha).2
    have hb2 := (List.mem_filter.mp hb).2
    simp only [beq_iff_eq] at ha2 hb2
    simp [scoreDescB, ha2, hb2]
  have hsub : List.Sublist (arts.filter (fun a => a.relevance_score == n))
      (arts.mergeSort scoreDescB) :=
    List.sublist_mergeSort scoreDescB_trans scoreDescB_total hpair (List.filter_sublist arts)
  have hsub2 : List.Sublist (arts.filter (fun a => a.relevance_score == n))
      ((arts.mergeSort scoreDescB).filter (fun a => a.relevance_score == n)) := by
    have h3 := hsub.filter (fun a => a.relevance_score == n)
    rw [List.filter_filter] at h3
    simpa only [Bool.and_self] using h3
  have hperm := (List.mergeSort_perm arts scoreDescB).filter (fun a => a.relevance_score == n)
  exact (hsub2.eq_of_length hperm.length_eq.symm).symm

lemma newsReply_spec (uid : Str) (i : List Str) (arts : List Article) :
    (newsReply uid i arts).articles = arts
    ∧ (newsReply uid i arts).news_count = arts.length
    ∧ (arts = [] → (newsReply uid i arts).next_action = "no_news_found")
    ∧ (arts ≠ [] → (newsReply uid i arts).next_action = "news_displayed") := by
  by_cases h : arts = []
  · subst h
    simp [newsReply]
  · simp [newsReply, List.isEmpty_eq_false.mpr h, h]

/-- C1: for every identifier (a non-empty string, per the data model) and
every topic list that is non-empty after normalization, set_interests
followed by get_interests returns exactly the normalized (trimmed,
lowercased, blank entries dropped) list in the same order as supplied. -/
theorem set_then_get_returns_normalized (uid : Str) (topics : List Str) (s : ServerState)
    (hid : uid ≠ []) (hne : cleanInterests topics ≠ []) :
    ∃ r s', set_interests uid topics s = (.ok r, s')
      ∧ r.interests = cleanInterests topics
      ∧ (get_interests uid s').1 = .ok
          { user_id := uid, interests := cleanInterests topics,
            count := (cleanInterests topics).length, next_action := "show_interests" } := by
  have htop : topics ≠ [] := by
    intro hh
    rw [hh] at hne
    exact hne rfl
  have h1 : topics.isEmpty = false := List.isEmpty_eq_false.mpr htop
  have h2 : (cleanInterests topics).isEmpty = false := List.isEmpty_eq_false.mpr hne
  have h3 : uid.isEmpty = false := List.isEmpty_eq_false.mpr hid
  refine ⟨{ user_id := uid, interests := cleanInterests topics, next_action := "ready_for_news" },
    { mem := insertStore s.mem uid (cleanInterests topics),
      disk := insertStore s.mem uid (cleanInterests topics) }, ?_, rfl, ?_⟩
  · simp [set_interests, h1, h2]
  · simp [get_interests, userInterests, h3, setdefaultStore, lookup_insertStore_self]

/-- C1 witness: a concrete run of the round trip. -/
theorem set_then_get_returns_normalized_witness :
    ∃ r s', set_interests (strOf "u1") [strOf " Tech"] ⟨[], []⟩ = (.ok r, s')
      ∧ r.interests = cleanInterests [strOf " Tech"]
      ∧ (get_interests (strOf "u1") s').1 = .ok
          { user_id := strOf "u1", interests := cleanInterests [strOf " Tech"],
            count := (cleanInterests [strOf " Tech"]).length,
            next_action := "show_interests" } :=
  set_then_get_returns_normalized (strOf "u1") [strOf " Tech"] ⟨[], []⟩
    (by decide) (by decide)

/-- C2 counterexample: with the empty identifier, set_interests succeeds
(it never validates the identifier), and hello_buzzbot fails with
INTERNAL_ERROR rather than INVALID_PARAMS, so not every entry point fails
with InvalidArgument on an empty identifier. -/
theorem empty_id_not_invalid_everywhere :
    (set_interests [] [strOf "technology"] ⟨[], []⟩).1
        = .ok { user_id := [], interests := [strOf "technology"], next_action := "ready_for_news" }
    ∧ (hello_buzzbot [] (strOf "hello") ⟨[], []⟩).1
        = .error (.internal "puch_user_id is required") :=
  ⟨rfl, rfl⟩

/-- C2 amended: with an empty identifier, get_latest_news fails with
INVALID_PARAMS; hello_buzzbot and get_interests also fail, but with
INTERNAL_ERROR wrapping the invalid-identifier message; set_interests
performs no identifier check and succeeds whenever the topics are valid. -/
theorem empty_id_behaviour (msg : Str) (topics : List Str) (o : ApiOutcome) (s : ServerState)
    (h : cleanInterests topics ≠ []) :
    (get_latest_news [] o s).1 = .error (.invalidParams "puch_user_id is required")
    ∧ (hello_buzzbot [] msg s).1 = .error (.internal "puch_user_id is required")
    ∧ (get_interests [] s).1 = .error (.internal "puch_user_id is required")
    ∧ (set_interests [] topics s).1
        = .ok { user_id := [], interests := cleanInterests topics,
                next_action := "ready_for_news" } := by
  have htop : topics ≠ [] := by
    intro hh
    rw [hh] at h
    exact h rfl
  have h1 : topics.isEmpty = false := List.isEmpty_eq_false.mpr htop
  have h2 : (cleanInterests topics).isEmpty = false := List.isEmpty_eq_false.mpr h
  refine ⟨rfl, rfl, rfl, ?_⟩
  simp [set_interests, h1, h2]

/-- C2 amended witness: concrete run of all four entry points. -/
theorem empty_id_behaviour_witness :
    (get_latest_news [] .timeout ⟨[], []⟩).1 = .error (.invalidParams "puch_user_id is required")
    ∧ (hello_buzzbot [] (strOf "hello") ⟨[], []⟩).1
        = .error (.internal "puch_user_id is required")
    ∧ (get_interests [] ⟨[], []⟩).1 = .error (.internal "puch_user_id is required")
    ∧ (set_interests [] [strOf "tech"] ⟨[], []⟩).1
        = .ok { user_id := [], interests := cleanInterests [strOf "tech"],
                next_action := "ready_for_news" } :=
  empty_id_behaviour (strOf "hello") [strOf "tech"] .timeout ⟨[], []⟩ (by decide)

/-- C3 counterexample: greeting with an identifier absent from the map
inserts an empty entry into the in-memory map, so greet does not leave the
store exactly as it found it. -/
theorem greet_mutates_on_first_touch :
    (hello_buzzbot (strOf "u1") (strOf "hello") ⟨[], []⟩).2 = ⟨[(strOf "u1", [])], []⟩
    ∧ (⟨[(strOf "u1", [])], []⟩ : ServerState) ≠ ⟨[], []⟩ :=
  ⟨rfl, by decide⟩

/-- C3 amended: greet never writes durable storage and leaves the map
unchanged for an identifier already present; for an absent (non-empty)
identifier it appends an empty in-memory entry, which is read-equivalent
to the identifier being absent, and changes no stored interest list. -/
theorem greet_read_effects (uid msg : Str) (s : ServerState) (hid : uid ≠ []) :
    (hello_buzzbot uid msg s).2.disk = s.disk
    ∧ (∀ v, lookupStore s.mem uid = some v → (hello_buzzbot uid msg s).2 = s)
    ∧ (lookupStore s.mem uid = none →
        (hello_buzzbot uid msg s).2 = { s with mem := s.mem ++ [(uid, [])] }) := by
  have hs := hello_state uid msg s hid
  refine ⟨?_, ?_, ?_⟩
  · rw [hs]
  · intro v hv
    rw [hs]
    simp [setdefaultStore, hv]
  · intro hv
    rw [hs]
    simp [setdefaultStore, hv]

/-- C3 amended witness: both the present-identifier and the
absent-identifier cases at concrete inputs. -/
theorem greet_read_effects_witness :
    (hello_buzzbot (strOf "u1") (strOf "hello") ⟨[], []⟩).2.disk = ([] : Store)
    ∧ (∀ v, lookupStore [] (strOf "u1") = some v →
        (hello_buzzbot (strOf "u1") (strOf "hello") ⟨[], []⟩).2 = ⟨[], []⟩)
    ∧ (lookupStore [] (strOf "u1") = none →
        (hello_buzzbot (strOf "u1") (strOf "hello") ⟨[], []⟩).2
          = { mem := [] ++ [(strOf "u1", [])], disk := [] }) :=
  greet_read_effects (strOf "u1") (strOf "hello") ⟨[], []⟩ (by decide)

/-- C4 counterexample: the code joins title and description with a space,
so a topic can match across the boundary even though it does not occur in
the plain concatenation: title "the", description "bat", topic "e b". -/
theorem relevance_not_plain_concat :
    calculate_relevance ⟨some (strOf "the"), some (strOf "bat"), none, none, none⟩
        [strOf "e b"] = 1
    ∧ claimedRelevance ⟨some (strOf "the"), some (strOf "bat"), none, none, none⟩
        [strOf "e b"] = 0 :=
  ⟨by decide, by decide⟩

/-- C4 amended: the relevance score equals the count of topics occurring
case-insensitively as a substring of the title and description joined by a
single space, each matching topic contributing exactly one point however
often it occurs; the ai-robotics example scores 2. -/
theorem relevance_counts_topics :
    (∀ (a : RawArticle) (ts : List Str), calculate_relevance a ts = spacedRelevance a ts)
    ∧ calculate_relevance ⟨some (strOf "AI breakthroughs in robotics"), some (strOf ""),
        none, none, none⟩ [strOf "ai", strOf "robotics"] = 2 := by
  constructor
  · intro a ts
    simp only [calculate_relevance, spacedRelevance, pyLower_append_space]
    rw [foldl_count]
    simp
  · decide

/-- C5: the sort step of the ranking is a permutation of its input, is
ordered by relevance score descending, is stable (equal scores keep their
input order), and the final result is the sorted list capped at 5. -/
theorem rank_sorts_stably (arts : List Article) :
    (arts.mergeSort scoreDescB).Perm arts
    ∧ (arts.mergeSort scoreDescB).Pairwise
        (fun a b => b.relevance_score ≤ a.relevance_score)
    ∧ (∀ n : Nat, (arts.mergeSort scoreDescB).filter (fun a => a.relevance_score == n)
        = arts.filter (fun a => a.relevance_score == n))
    ∧ rankArticles arts = (arts.mergeSort scoreDescB).take 5
    ∧ (rankArticles arts).length ≤ 5 := by
  refine ⟨List.mergeSort_perm arts scoreDescB, ?_,
    fun n => mergeSort_filter_score arts n, rfl, ?_⟩
  · have hs := List.sorted_mergeSort scoreDescB_trans scoreDescB_total arts
    exact hs.imp fun h => by simpa [scoreDescB] using h
  · simp only [rankArticles, List.length_take]
    omega

/-- C6: set_interests fails with InvalidArgument exactly when the topics
list is empty or every entry is blank after trimming, and succeeds on any
input with at least one non-blank entry, for every identifier. -/
theorem set_interests_invalid_iff (uid : Str) (topics : List Str) (s : ServerState) :
    ((∃ m, (set_interests uid topics s).1 = .error (.invalidParams m))
        ↔ cleanInterests topics = [])
    ∧ (cleanInterests topics ≠ [] → ∃ r, (set_interests uid topics s).1 = .ok r) := by
  by_cases h1 : topics = []
  · subst h1
    refine ⟨⟨fun _ => rfl, fun _ => ⟨"interests must be a non-empty list", rfl⟩⟩, ?_⟩
    intro hne
    exact absurd rfl hne
  · have h1b : topics.isEmpty = false := List.isEmpty_eq_false.mpr h1
    by_cases h2 : cleanInterests topics = []
    · have h2b : (cleanInterests topics).isEmpty = true := by
        rw [h2]
        rfl
      refine ⟨⟨fun _ => h2, fun _ => ?_⟩, fun hne => absurd h2 hne⟩
      exact ⟨"interests cannot be empty after cleaning", by simp [set_interests, h1b, h2b]⟩
    · have h2b : (cleanInterests topics).isEmpty = false := List.isEmpty_eq_false.mpr h2
      constructor
      · constructor
        · rintro ⟨m, hm⟩
          simp [set_interests, h1b, h2b] at hm
        · intro hh
          exact absurd hh h2
      · intro _
        exact ⟨{ user_id := uid, interests := cleanInterests topics,
                 next_action := "ready_for_news" },
               by simp [set_interests, h1b, h2b]⟩

/-- C6 witness: the two rejected inputs from the spec and one accepted
input, at concrete values. -/
theorem set_interests_invalid_iff_witness :
    (((∃ m, (set_interests (strOf "u") [strOf " ", strOf ""] ⟨[], []⟩).1
          = .error (.invalidParams m))
        ↔ cleanInterests [strOf " ", strOf ""] = [])
      ∧ (cleanInterests [strOf " ", strOf ""] ≠ [] →
          ∃ r, (set_interests (strOf "u") [strOf " ", strOf ""] ⟨[], []⟩).1 = .ok r))
    ∧ (((∃ m, (set_interests (strOf "u") [] ⟨[], []⟩).1 = .error (.invalidParams m))
        ↔ cleanInterests [] = [])
      ∧ (cleanInterests ([] : List Str) ≠ [] →
          ∃ r, (set_interests (strOf "u") [] ⟨[], []⟩).1 = .ok r))
    ∧ (((∃ m, (set_interests (strOf "u") [strOf "AI "] ⟨[], []⟩).1
          = .error (.invalidParams m))
        ↔ cleanInterests [strOf "AI "] = [])
      ∧ (cleanInterests [strOf "AI "] ≠ [] →
          ∃ r, (set_interests (strOf "u") [strOf "AI "] ⟨[], []⟩).1 = .ok r)) :=
  ⟨set_interests_invalid_iff (strOf "u") [strOf " ", strOf ""] ⟨[], []⟩,
   set_interests_invalid_iff (strOf "u") [] ⟨[], []⟩,
   set_interests_invalid_iff (strOf "u") [strOf "AI "] ⟨[], []⟩⟩

/-- C7: get_latest_news fails with INVALID_PARAMS exactly when the stored
interest set is empty (identifiers never seen included); with a non-empty
stored set it succeeds and returns either the empty-result notice or the
ranked article list with its count. -/
theorem get_news_requires_interests (uid : Str) (o : ApiOutcome) (s : ServerState)
    (hid : uid ≠ []) :
    ((lookupStore s.mem uid).getD [] = [] →
        (get_latest_news uid o s).1 = .error (.invalidParams
          "No interests set. Please set interests first using set_interests or say hello to get started."))
    ∧ (∀ interests, lookupStore s.mem uid = some interests → interests ≠ [] →
        ∃ r, (get_latest_news uid o s).1 = .ok r
          ∧ r.articles = (fetch_news_by_interests interests o s).1
          ∧ r.news_count = r.articles.length
          ∧ (r.articles = [] → r.next_action = "no_news_found")
          ∧ (r.articles ≠ [] → r.next_action = "news_displayed")) := by
  have h3 : uid.isEmpty = false := List.isEmpty_eq_false.mpr hid
  constructor
  · intro hempty
    have hv : (setdefaultStore s.mem uid).1 = [] := by
      rw [setdefault_fst]
      exact hempty
    simp [get_latest_news, userInterests, h3, hv]
  · intro interests hl hne
    have hv : (setdefaultStore s.mem uid).1 = interests := by
      rw [setdefault_fst, hl]
      rfl
    have hst : (setdefaultStore s.mem uid).2 = s.mem := by
      simp [setdefaultStore, hl]
    have hni : interests.isEmpty = false := List.isEmpty_eq_false.mpr hne
    obtain ⟨ha, hc, hn1, hn2⟩ :=
      newsReply_spec uid interests (fetch_news_by_interests interests o s).1
    refine ⟨newsReply uid interests (fetch_news_by_interests interests o s).1,
      ?_, ha, ?_, ?_, ?_⟩
    · simp [get_latest_news, userInterests, h3, hv, hst, hni]
    · rw [ha, hc]
    · intro he
      exact hn1 (by rwa [ha] at he)
    · intro he
      exact hn2 (by rwa [ha] at he)

/-- C7 witness: an unknown identifier fails, a stored one succeeds. -/
theorem get_news_requires_interests_witness :
    (((lookupStore [(strOf "u1", [strOf "tech"])] (strOf "u1")).getD [] = [] →
        (get_latest_news (strOf "u1") .timeout ⟨[(strOf "u1", [strOf "tech"])], []⟩).1
          = .error (.invalidParams
            "No interests set. Please set interests first using set_interests or say hello to get started."))
    ∧ (∀ interests, lookupStore [(strOf "u1", [strOf "tech"])] (strOf "u1") = some interests →
        interests ≠ [] →
        ∃ r, (get_latest_news (strOf "u1") .timeout ⟨[(strOf "u1", [strOf "tech"])], []⟩).1 = .ok r
          ∧ r.articles = (fetch_news_by_interests interests .timeout
              ⟨[(strOf "u1", [strOf "tech"])], []⟩).1
          ∧ r.news_count = r.articles.length
          ∧ (r.articles = [] → r.next_action = "no_news_found")
          ∧ (r.articles ≠ [] → r.next_action = "news_displayed"))) :=
  get_news_requires_interests (strOf "u1") .timeout
    ⟨[(strOf "u1", [strOf "tech"])], []⟩ (by decide)

/-- C8: on timeout, transport error or non-success HTTP status the fetch
returns the empty list instead of propagating the error, and leaves the
state untouched. -/
theorem fetch_errors_return_empty (ts : List Str) (s : ServerState) (h : ts ≠ []) :
    fetch_news_by_interests ts .timeout s = ([], s)
    ∧ fetch_news_by_interests ts .transportError s = ([], s)
    ∧ fetch_news_by_interests ts .httpError s = ([], s) := by
  have h1 : ts.isEmpty = false := List.isEmpty_eq_false.mpr h
  refine ⟨?_, ?_, ?_⟩ <;> simp [fetch_news_by_interests, h1]

/-- C8 witness: the three failure outcomes at a concrete topic list. -/
theorem fetch_errors_return_empty_witness :
    fetch_news_by_interests [strOf "ai"] .timeout ⟨[], []⟩ = ([], ⟨[], []⟩)
    ∧ fetch_news_by_interests [strOf "ai"] .transportError ⟨[], []⟩ = ([], ⟨[], []⟩)
    ∧ fetch_news_by_interests [strOf "ai"] .httpError ⟨[], []⟩ = ([], ⟨[], []⟩) :=
  fetch_errors_return_empty [strOf "ai"] ⟨[], []⟩ (by decide)

/-- C9: every operation preserves the invariant that stored interest
lists contain only trimmed, lowercased, non-empty topics, and the topic
normalization never deduplicates: for any non-blank topic value, its
multiplicity in the cleaned list equals its multiplicity among the
cleaned forms of all supplied entries. -/
theorem operations_preserve_inv (s : ServerState) (hinv : storeInv s.mem) :
    (∀ uid topics, storeInv (set_interests uid topics s).2.mem)
    ∧ (∀ uid msg, storeInv (hello_buzzbot uid msg s).2.mem)
    ∧ (∀ uid, storeInv (get_interests uid s).2.mem)
    ∧ (∀ uid o, storeInv (get_latest_news uid o s).2.mem)
    ∧ (∀ topics t, t ≠ [] →
        (cleanInterests topics).count t = (topics.map cleanTopic).count t) := by
  have hread : ∀ uid : Str, storeInv ({ s with mem := (setdefaultStore s.mem uid).2 }).mem :=
    fun uid => storeInv_setdefault s.mem uid hinv
  refine ⟨?_, ?_, ?_, ?_, fun topics t ht => count_cleanInterests topics t ht⟩
  · intro uid topics
    by_cases h1 : topics.isEmpty = true
    · simpa [set_interests, h1] using hinv
    · by_cases h2 : (cleanInterests topics).isEmpty = true
      · simpa [set_interests, h1, h2] using hinv
      · have hm : (set_interests uid topics s).2.mem
            = insertStore s.mem uid (cleanInterests topics) := by
          simp [set_interests, h1, h2]
        rw [hm]
        exact storeInv_insertStore s.mem uid (cleanInterests topics) hinv
          (cleanInterests_clean topics)
  · intro uid msg
    by_cases hu : uid = []
    · subst hu
      simpa [hello_buzzbot, userInterests] using hinv
    · rw [hello_state uid msg s hu]
      exact hread uid
  · intro uid
    by_cases hu : uid = []
    · subst hu
      simpa [get_interests, userInterests] using hinv
    · rw [get_interests_state uid s hu]
      exact hread uid
  · intro uid o
    by_cases hu : uid = []
    · subst hu
      simpa [get_latest_news, userInterests] using hinv
    · rw [get_latest_news_state uid o s hu]
      exact hread uid

/-- C9 witness: the invariant statement instantiated at the empty store. -/
theorem operations_preserve_inv_witness :
    (∀ uid topics, storeInv (set_interests uid topics ⟨[], []⟩).2.mem)
    ∧ (∀ uid msg, storeInv (hello_buzzbot uid msg ⟨[], []⟩).2.mem)
    ∧ (∀ uid, storeInv (get_interests uid ⟨[], []⟩).2.mem)
    ∧ (∀ uid o, storeInv (get_latest_news uid o ⟨[], []⟩).2.mem)
    ∧ (∀ topics t, t ≠ [] →
        (cleanInterests topics).count t = (topics.map cleanTopic).count t) :=
  operations_preserve_inv ⟨[], []⟩ (by intro p hp t ht; cases hp)

/-- C10: get_latest_news on a non-empty identifier absent from the map
fails with INVALID_PARAMS, yet afterwards the map holds that identifier
bound to the empty list: the read-side entry creation is not rolled back. -/
theorem get_news_not_atomic (uid : Str) (o : ApiOutcome) (s : ServerState)
    (hid : uid ≠ []) (habs : lookupStore s.mem uid = none) :
    (get_latest_news uid o s).1 = .error (.invalidParams
      "No interests set. Please set interests first using set_interests or say hello to get started.")
    ∧ lookupStore (get_latest_news uid o s).2.mem uid = some [] := by
  have h3 : uid.isEmpty = false := List.isEmpty_eq_false.mpr hid
  have hv : (setdefaultStore s.mem uid).1 = [] := by
    rw [setdefault_fst, habs]
    rfl
  have hst : (setdefaultStore s.mem uid).2 = s.mem ++ [(uid, [])] := by
    simp [setdefaultStore, habs]
  constructor
  · simp [get_latest_news, userInterests, h3, hv]
  · rw [get_latest_news_state uid o s hid]
    show lookupStore (setdefaultStore s.mem uid).2 uid = some []
    rw [hst]
    exact lookup_append_single s.mem uid [] habs

/-- C10 witness: concrete run on an empty store. -/
theorem get_news_not_atomic_witness :
    (get_latest_news (strOf "u1") .timeout ⟨[], []⟩).1 = .error (.invalidParams
      "No interests set. Please set interests first using set_interests or say hello to get started.")
    ∧ lookupStore (get_latest_news (strOf "u1") .timeout ⟨[], []⟩).2.mem (strOf "u1")
        = some [] :=
  get_news_not_atomic (strOf "u1") .timeout ⟨[], []⟩ (by decide) rfl

end WorldFeed
